import Mathlib

/-!
Verification of the perturbation-acceleration models in
src/poliastro/twobody/perturbations.py: J2/J3 oblateness harmonics,
atmospheric drag, third-body attraction, shadow (eclipse) predicate and
radiation pressure.  The floating-point arithmetic of the source is
embedded as real arithmetic; 3-vectors and 6-component state vectors are
records of reals.  Partial numeric operations (division, arccos) also get
Option-valued guarded counterparts, used to express that the functions
stay inside their numeric domain on non-degenerate inputs.
-/

open Real

namespace Poliastro

/-- A 3-component real vector, the embedding of a numpy array of shape (3,). -/
@[ext]
structure Vec3 where
  x : ℝ
  y : ℝ
  z : ℝ

instance : Zero Vec3 := ⟨⟨0, 0, 0⟩⟩

/-- Componentwise subtraction, the embedding of numpy vector subtraction. -/
def Vec3.sub (a b : Vec3) : Vec3 := ⟨a.x - b.x, a.y - b.y, a.z - b.z⟩

/-- Scalar multiple of a vector, used to state the claims about directions. -/
def Vec3.smul (c : ℝ) (v : Vec3) : Vec3 := ⟨c * v.x, c * v.y, c * v.z⟩

/-- Dot product, the embedding of np.dot on 3-vectors. -/
def Vec3.dot (a b : Vec3) : ℝ := a.x * b.x + a.y * b.y + a.z * b.z

/-- Modelled from the spec: poliastro.util.norm is imported by the source
file but its code is not part of the source slice; section 4.1 of the spec
specifies it as the Euclidean (L2) length of the vector. -/
noncomputable def norm (v : Vec3) : ℝ := Real.sqrt (v.x ^ 2 + v.y ^ 2 + v.z ^ 2)

/-- The six component state vector [x, y, z, vx, vy, vz] (km, km/s). -/
structure State where
  x : ℝ
  y : ℝ
  z : ℝ
  vx : ℝ
  vy : ℝ
  vz : ℝ

/-- The position sub-vector, the embedding of state[:3]. -/
def State.pos (s : State) : Vec3 := ⟨s.x, s.y, s.z⟩

/-- The velocity sub-vector, the embedding of state[3:]. -/
def State.vel (s : State) : Vec3 := ⟨s.vx, s.vy, s.vz⟩

/-- Embedding of J2_perturbation: acceleration due to the J2 oblateness
harmonic, Curtis (12.30).  The numpy expression
np.array([a_x, a_y, a_z]) * r_vec * factor is elementwise. -/
noncomputable def J2_perturbation (t0 : ℝ) (state : State) (k J2 R : ℝ) : Vec3 :=
  let r_vec := state.pos
  let r := norm r_vec
  let factor := (3 / 2) * k * J2 * R ^ 2 / r ^ 5
  let a_x := 5 * r_vec.z ^ 2 / r ^ 2 - 1
  let a_y := 5 * r_vec.z ^ 2 / r ^ 2 - 1
  let a_z := 5 * r_vec.z ^ 2 / r ^ 2 - 3
  ⟨a_x * r_vec.x * factor, a_y * r_vec.y * factor, a_z * r_vec.z * factor⟩

/-- Embedding of J3_perturbation: acceleration due to the J3 oblateness
harmonic, Curtis problem 12.8. -/
noncomputable def J3_perturbation (t0 : ℝ) (state : State) (k J3 R : ℝ) : Vec3 :=
  let r_vec := state.pos
  let r := norm r_vec
  let factor := (1 / 2) * k * J3 * R ^ 3 / r ^ 5
  let cos_phi := r_vec.z / r
  let a_x := 5 * r_vec.x / r * (7 * cos_phi ^ 3 - 3 * cos_phi)
  let a_y := 5 * r_vec.y / r * (7 * cos_phi ^ 3 - 3 * cos_phi)
  let a_z := 3 * (35 / 3 * cos_phi ^ 4 - 10 * cos_phi ^ 2 + 1)
  ⟨a_x * factor, a_y * factor, a_z * factor⟩

/-- Embedding of atmospheric_drag: exponential-atmosphere drag
acceleration, Curtis section 12.4.  Note the density exponent uses
H - R, not H alone. -/
noncomputable def atmospheric_drag (t0 : ℝ) (state : State)
    (k R C_D A m H0 rho0 : ℝ) : Vec3 :=
  let H := norm state.pos
  let v_vec := state.vel
  let v := norm v_vec
  let B := C_D * A / m
  let rho := rho0 * Real.exp (-(H - R) / H0)
  ⟨-(1 / 2) * rho * B * v * v_vec.x,
   -(1 / 2) * rho * B * v * v_vec.y,
   -(1 / 2) * rho * B * v * v_vec.z⟩

/-- Embedding of third_body: direct minus indirect third-body attraction.
The position-provider callable of the source becomes a function argument. -/
noncomputable def third_body (t0 : ℝ) (state : State) (k k_third : ℝ)
    (third_body_pos : ℝ → Vec3) : Vec3 :=
  let body_r := third_body_pos t0
  let delta_r := Vec3.sub body_r state.pos
  ⟨k_third * delta_r.x / norm delta_r ^ 3 - k_third * body_r.x / norm body_r ^ 3,
   k_third * delta_r.y / norm delta_r ^ 3 - k_third * body_r.y / norm body_r ^ 3,
   k_third * delta_r.z / norm delta_r ^ 3 - k_third * body_r.z / norm body_r ^ 3⟩

/-- Embedding of shadow_function: Curtis algorithm 12.3 geometric shadow
cone test.  The source computes the two norms inline as
np.sqrt(np.sum(r ** 2)); true means illuminated. -/
noncomputable def shadow_function (r_sat r_sun : Vec3) (R : ℝ) : Bool :=
  let r_sat_norm := Real.sqrt (r_sat.x ^ 2 + r_sat.y ^ 2 + r_sat.z ^ 2)
  let r_sun_norm := Real.sqrt (r_sun.x ^ 2 + r_sun.y ^ 2 + r_sun.z ^ 2)
  let theta := Real.arccos (Vec3.dot r_sat r_sun / r_sat_norm / r_sun_norm)
  let theta_1 := Real.arccos (R / r_sat_norm)
  let theta_2 := Real.arccos (R / r_sun_norm)
  decide (theta < theta_1 + theta_2)

/-- Embedding of radiation_pressure: Curtis section 12.9, with the binary
illumination factor nu = float(shadow_function(...)). -/
noncomputable def radiation_pressure (t0 : ℝ) (state : State)
    (k R C_R A m Wdivc_s : ℝ) (star : ℝ → Vec3) : Vec3 :=
  let r_star := star t0
  let r_sat := state.pos
  let P_s := Wdivc_s / norm r_star ^ 2
  let nu : ℝ := if shadow_function r_sat r_star R then 1 else 0
  ⟨-nu * P_s * (C_R * A / m) * r_star.x / norm r_star,
   -nu * P_s * (C_R * A / m) * r_star.y / norm r_star,
   -nu * P_s * (C_R * A / m) * r_star.z / norm r_star⟩

/-- Guarded division: none exactly on the zero denominator, where the
floating-point source would produce an Inf/NaN domain artifact. -/
noncomputable def cdiv (a b : ℝ) : Option ℝ :=
  if b = 0 then none else some (a / b)

/-- Guarded arccos: none outside [-1, 1], where the floating-point source
would produce a NaN domain artifact. -/
noncomputable def carccos (t : ℝ) : Option ℝ :=
  if -1 ≤ t ∧ t ≤ 1 then some (Real.arccos t) else none

/-- J2_perturbation with every division guarded, making the numeric-domain
error cases of the source explicit. -/
noncomputable def J2_perturbationChecked (t0 : ℝ) (state : State)
    (k J2 R : ℝ) : Option Vec3 := do
  let r_vec := state.pos
  let r := norm r_vec
  let factor ← cdiv ((3 / 2) * k * J2 * R ^ 2) (r ^ 5)
  let a_x ← cdiv (5 * r_vec.z ^ 2) (r ^ 2)
  let a_y ← cdiv (5 * r_vec.z ^ 2) (r ^ 2)
  let a_z ← cdiv (5 * r_vec.z ^ 2) (r ^ 2)
  return ⟨(a_x - 1) * r_vec.x * factor,
          (a_y - 1) * r_vec.y * factor,
          (a_z - 3) * r_vec.z * factor⟩

/-- J3_perturbation with every division guarded. -/
noncomputable def J3_perturbationChecked (t0 : ℝ) (state : State)
    (k J3 R : ℝ) : Option Vec3 := do
  let r_vec := state.pos
  let r := norm r_vec
  let factor ← cdiv ((1 / 2) * k * J3 * R ^ 3) (r ^ 5)
  let cos_phi ← cdiv r_vec.z r
  let q_x ← cdiv (5 * r_vec.x) r
  let q_y ← cdiv (5 * r_vec.y) r
  let a_x := q_x * (7 * cos_phi ^ 3 - 3 * cos_phi)
  let a_y := q_y * (7 * cos_phi ^ 3 - 3 * cos_phi)
  let a_z := 3 * (35 / 3 * cos_phi ^ 4 - 10 * cos_phi ^ 2 + 1)
  return ⟨a_x * factor, a_y * factor, a_z * factor⟩

/-- atmospheric_drag with every division guarded. -/
noncomputable def atmospheric_dragChecked (t0 : ℝ) (state : State)
    (k R C_D A m H0 rho0 : ℝ) : Option Vec3 := do
  let H := norm state.pos
  let v_vec := state.vel
  let v := norm v_vec
  let B ← cdiv (C_D * A) m
  let e ← cdiv (-(H - R)) H0
  let rho := rho0 * Real.exp e
  return ⟨-(1 / 2) * rho * B * v * v_vec.x,
          -(1 / 2) * rho * B * v * v_vec.y,
          -(1 / 2) * rho * B * v * v_vec.z⟩

/-- third_body with every division guarded. -/
noncomputable def third_bodyChecked (t0 : ℝ) (state : State) (k k_third : ℝ)
    (third_body_pos : ℝ → Vec3) : Option Vec3 := do
  let body_r := third_body_pos t0
  let delta_r := Vec3.sub body_r state.pos
  let dx ← cdiv (k_third * delta_r.x) (norm delta_r ^ 3)
  let dy ← cdiv (k_third * delta_r.y) (norm delta_r ^ 3)
  let dz ← cdiv (k_third * delta_r.z) (norm delta_r ^ 3)
  let ix ← cdiv (k_third * body_r.x) (norm body_r ^ 3)
  let iy ← cdiv (k_third * body_r.y) (norm body_r ^ 3)
  let iz ← cdiv (k_third * body_r.z) (norm body_r ^ 3)
  return ⟨dx - ix, dy - iy, dz - iz⟩

/-- shadow_function with every division and arccos application guarded. -/
noncomputable def shadow_functionChecked (r_sat r_sun : Vec3) (R : ℝ) :
    Option Bool := do
  let r_sat_norm := Real.sqrt (r_sat.x ^ 2 + r_sat.y ^ 2 + r_sat.z ^ 2)
  let r_sun_norm := Real.sqrt (r_sun.x ^ 2 + r_sun.y ^ 2 + r_sun.z ^ 2)
  let q1 ← cdiv (Vec3.dot r_sat r_sun) r_sat_norm
  let q2 ← cdiv q1 r_sun_norm
  let theta ← carccos q2
  let t_1 ← cdiv R r_sat_norm
  let theta_1 ← carccos t_1
  let t_2 ← cdiv R r_sun_norm
  let theta_2 ← carccos t_2
  return decide (theta < theta_1 + theta_2)

/-- radiation_pressure with every division guarded and the guarded shadow
test. -/
noncomputable def radiation_pressureChecked (t0 : ℝ) (state : State)
    (k R C_R A m Wdivc_s : ℝ) (star : ℝ → Vec3) : Option Vec3 := do
  let r_star := star t0
  let r_sat := state.pos
  let P_s ← cdiv Wdivc_s (norm r_star ^ 2)
  let c ← cdiv (C_R * A) m
  let sf ← shadow_functionChecked r_sat r_star R
  let nu : ℝ := if sf then 1 else 0
  let ax ← cdiv (-nu * P_s * c * r_star.x) (norm r_star)
  let ay ← cdiv (-nu * P_s * c * r_star.y) (norm r_star)
  let az ← cdiv (-nu * P_s * c * r_star.z) (norm r_star)
  return ⟨ax, ay, az⟩

/-! Basic facts about the embedding. -/

theorem Vec3.zero_def : (0 : Vec3) = ⟨0, 0, 0⟩ := rfl

theorem shadow_function_eq (r_sat r_sun : Vec3) (R : ℝ) :
    shadow_function r_sat r_sun R =
      decide (Real.arccos (Vec3.dot r_sat r_sun / norm r_sat / norm r_sun) <
        Real.arccos (R / norm r_sat) + Real.arccos (R / norm r_sun)) := rfl

theorem norm_nonneg (v : Vec3) : 0 ≤ norm v := Real.sqrt_nonneg _

theorem norm_pos_of_ne_zero {v : Vec3} (h : v ≠ 0) : 0 < norm v := by
  rw [norm, Real.sqrt_pos]
  rcases lt_or_eq_of_le (by positivity : (0 : ℝ) ≤ v.x ^ 2 + v.y ^ 2 + v.z ^ 2) with hlt | heq
  · exact hlt
  · exfalso
    apply h
    have hx : v.x = 0 := by nlinarith [sq_nonneg v.x, sq_nonneg v.y, sq_nonneg v.z]
    have hy : v.y = 0 := by nlinarith [sq_nonneg v.x, sq_nonneg v.y, sq_nonneg v.z]
    have hz : v.z = 0 := by nlinarith [sq_nonneg v.x, sq_nonneg v.y, sq_nonneg v.z]
    show v = ⟨0, 0, 0⟩
    ext <;> assumption

theorem norm_xAxis {a : ℝ} (h : 0 ≤ a) : norm ⟨a, 0, 0⟩ = a := by
  rw [norm]
  simp only
  rw [show a ^ 2 + 0 ^ 2 + 0 ^ 2 = a ^ 2 by ring, Real.sqrt_sq h]

theorem norm_negXAxis {a : ℝ} (h : 0 ≤ a) : norm ⟨-a, 0, 0⟩ = a := by
  rw [norm]
  simp only
  rw [show (-a) ^ 2 + 0 ^ 2 + 0 ^ 2 = a ^ 2 by ring, Real.sqrt_sq h]

theorem norm_yAxis {a : ℝ} (h : 0 ≤ a) : norm ⟨0, a, 0⟩ = a := by
  rw [norm]
  simp only
  rw [show (0 : ℝ) ^ 2 + a ^ 2 + 0 ^ 2 = a ^ 2 by ring, Real.sqrt_sq h]

/-- Cauchy-Schwarz for the embedded dot product and norm. -/
theorem abs_dot_le (a b : Vec3) : |Vec3.dot a b| ≤ norm a * norm b := by
  have hsq : (Vec3.dot a b) ^ 2 ≤
      (a.x ^ 2 + a.y ^ 2 + a.z ^ 2) * (b.x ^ 2 + b.y ^ 2 + b.z ^ 2) := by
    rw [Vec3.dot]
    nlinarith [sq_nonneg (a.x * b.y - a.y * b.x), sq_nonneg (a.x * b.z - a.z * b.x),
      sq_nonneg (a.y * b.z - a.z * b.y)]
  calc |Vec3.dot a b| = Real.sqrt ((Vec3.dot a b) ^ 2) := (Real.sqrt_sq_eq_abs _).symm
    _ ≤ Real.sqrt ((a.x ^ 2 + a.y ^ 2 + a.z ^ 2) * (b.x ^ 2 + b.y ^ 2 + b.z ^ 2)) :=
        Real.sqrt_le_sqrt hsq
    _ = norm a * norm b := Real.sqrt_mul (by positivity) _

theorem cdiv_of_ne (a : ℝ) {b : ℝ} (h : b ≠ 0) : cdiv a b = some (a / b) :=
  if_neg h

theorem sqrt_sq_sum_eq_norm (v : Vec3) :
    Real.sqrt (v.x ^ 2 + v.y ^ 2 + v.z ^ 2) = norm v := rfl

theorem carccos_of_mem {t : ℝ} (h1 : -1 ≤ t) (h2 : t ≤ 1) :
    carccos t = some (Real.arccos t) := if_pos ⟨h1, h2⟩

/-- In the antipodal configuration the satellite sits exactly opposite the
light source, so the cone test reports eclipse. -/
theorem shadow_false_opposite {a b R : ℝ} (ha : 0 < a) (hb : 0 < b)
    (hR : 0 < R) : shadow_function ⟨a, 0, 0⟩ ⟨-b, 0, 0⟩ R = false := by
  rw [shadow_function_eq, norm_xAxis ha.le, norm_negXAxis hb.le]
  have hdot : Vec3.dot ⟨a, 0, 0⟩ ⟨-b, 0, 0⟩ = -(a * b) := by
    rw [Vec3.dot]; ring
  have harg : Vec3.dot ⟨a, 0, 0⟩ ⟨-b, 0, 0⟩ / a / b = -1 := by
    rw [hdot]; field_simp
  rw [harg, Real.arccos_neg_one, decide_eq_false_iff_not, not_lt]
  have h1 : Real.arccos (R / a) ≤ π / 2 :=
    Real.arccos_le_pi_div_two.mpr (by positivity)
  have h2 : Real.arccos (R / b) ≤ π / 2 :=
    Real.arccos_le_pi_div_two.mpr (by positivity)
  linarith

/-- In the perpendicular configuration with both bodies well clear of the
attractor the cone test reports illumination. -/
theorem shadow_true_perp {a b R : ℝ} (ha : 0 < a) (hb : 0 < b) (hR : 0 ≤ R)
    (h : (R / a) ^ 2 + (R / b) ^ 2 < 1) :
    shadow_function ⟨a, 0, 0⟩ ⟨0, b, 0⟩ R = true := by
  rw [shadow_function_eq, norm_xAxis ha.le, norm_yAxis hb.le]
  have hdot : Vec3.dot ⟨a, 0, 0⟩ ⟨0, b, 0⟩ = 0 := by
    rw [Vec3.dot]; ring
  rw [hdot, zero_div, zero_div, Real.arccos_zero, decide_eq_true_iff]
  set u := R / a with hu
  set v := R / b with hv
  have hu0 : 0 ≤ u := by positivity
  have hv0 : 0 ≤ v := by positivity
  have hv1 : v ≤ 1 := by nlinarith
  have hkey : Real.arcsin v < Real.arccos u := by
    rw [Real.arccos_eq_arcsin hu0]
    have hlt : v < Real.sqrt (1 - u ^ 2) := by
      rw [Real.lt_sqrt hv0]
      nlinarith
    have hmem1 : v ∈ Set.Icc (-1 : ℝ) 1 := ⟨by linarith, hv1⟩
    have hmem2 : Real.sqrt (1 - u ^ 2) ∈ Set.Icc (-1 : ℝ) 1 := by
      constructor
      · linarith [Real.sqrt_nonneg (1 - u ^ 2)]
      · have hle : Real.sqrt (1 - u ^ 2) ≤ Real.sqrt 1 :=
          Real.sqrt_le_sqrt (by nlinarith)
        simpa [Real.sqrt_one] using hle
    exact Real.strictMonoOn_arcsin hmem1 hmem2 hlt
  have hsplit : Real.arccos v = π / 2 - Real.arcsin v :=
    Real.arccos_eq_pi_div_two_sub_arcsin v
  linarith

/-- On a state with position off the attractor center, the guarded J2 model
succeeds and agrees with the total model. -/
theorem J2_perturbationChecked_eq (t0 : ℝ) (state : State) (k J2 R : ℝ)
    (hr : norm state.pos ≠ 0) :
    J2_perturbationChecked t0 state k J2 R =
      some (J2_perturbation t0 state k J2 R) := by
  have h5 : norm state.pos ^ 5 ≠ 0 := pow_ne_zero _ hr
  have h2 : norm state.pos ^ 2 ≠ 0 := pow_ne_zero _ hr
  rw [J2_perturbationChecked, J2_perturbation]
  simp only [cdiv_of_ne _ h5, cdiv_of_ne _ h2, Option.bind_eq_bind, Option.some_bind]
  rfl

/-- On a state with position off the attractor center, the guarded J3 model
succeeds and agrees with the total model. -/
theorem J3_perturbationChecked_eq (t0 : ℝ) (state : State) (k J3 R : ℝ)
    (hr : norm state.pos ≠ 0) :
    J3_perturbationChecked t0 state k J3 R =
      some (J3_perturbation t0 state k J3 R) := by
  have h5 : norm state.pos ^ 5 ≠ 0 := pow_ne_zero _ hr
  rw [J3_perturbationChecked, J3_perturbation]
  simp only [cdiv_of_ne _ h5, cdiv_of_ne _ hr, Option.bind_eq_bind, Option.some_bind]
  rfl

/-- With nonzero spacecraft mass and scale height, the guarded drag model
succeeds and agrees with the total model. -/
theorem atmospheric_dragChecked_eq (t0 : ℝ) (state : State)
    (k R C_D A m H0 rho0 : ℝ) (hm : m ≠ 0) (hH0 : H0 ≠ 0) :
    atmospheric_dragChecked t0 state k R C_D A m H0 rho0 =
      some (atmospheric_drag t0 state k R C_D A m H0 rho0) := by
  rw [atmospheric_dragChecked, atmospheric_drag]
  simp only [cdiv_of_ne _ hm, cdiv_of_ne _ hH0, Option.bind_eq_bind, Option.some_bind]
  rfl

/-- With the third body neither at the attractor center nor coincident with
the satellite, the guarded third-body model succeeds and agrees with the
total model. -/
theorem third_bodyChecked_eq (t0 : ℝ) (state : State) (k k_third : ℝ)
    (third_body_pos : ℝ → Vec3)
    (hsep : norm (Vec3.sub (third_body_pos t0) state.pos) ≠ 0)
    (hbody : norm (third_body_pos t0) ≠ 0) :
    third_bodyChecked t0 state k k_third third_body_pos =
      some (third_body t0 state k k_third third_body_pos) := by
  have h1 : norm (Vec3.sub (third_body_pos t0) state.pos) ^ 3 ≠ 0 := pow_ne_zero _ hsep
  have h2 : norm (third_body_pos t0) ^ 3 ≠ 0 := pow_ne_zero _ hbody
  rw [third_bodyChecked, third_body]
  simp only [cdiv_of_ne _ h1, cdiv_of_ne _ h2, Option.bind_eq_bind, Option.some_bind]
  rfl

/-- Under the shadow-test preconditions (both bodies off the attractor
center and at distance at least the nonnegative radius R), every division
and arccos argument of the guarded shadow test is in range, and it agrees
with the total shadow test. -/
theorem shadow_functionChecked_eq (r_sat r_sun : Vec3) (R : ℝ)
    (hsat : r_sat ≠ 0) (hsun : r_sun ≠ 0) (hR : 0 ≤ R)
    (hRsat : R ≤ norm r_sat) (hRsun : R ≤ norm r_sun) :
    shadow_functionChecked r_sat r_sun R =
      some (shadow_function r_sat r_sun R) := by
  have hna : 0 < norm r_sat := norm_pos_of_ne_zero hsat
  have hnb : 0 < norm r_sun := norm_pos_of_ne_zero hsun
  have habs : |Vec3.dot r_sat r_sun / norm r_sat / norm r_sun| ≤ 1 := by
    rw [div_div, abs_div, abs_of_pos (by positivity : (0 : ℝ) < norm r_sat * norm r_sun)]
    exact div_le_one_of_le₀ (abs_dot_le r_sat r_sun) (by positivity)
  have hq1 : -1 ≤ Vec3.dot r_sat r_sun / norm r_sat / norm r_sun := (abs_le.mp habs).1
  have hq2 : Vec3.dot r_sat r_sun / norm r_sat / norm r_sun ≤ 1 := (abs_le.mp habs).2
  have ht1l : (-1 : ℝ) ≤ R / norm r_sat :=
    le_trans (by norm_num) (by positivity : (0 : ℝ) ≤ R / norm r_sat)
  have ht1r : R / norm r_sat ≤ 1 := (div_le_one hna).mpr hRsat
  have ht2l : (-1 : ℝ) ≤ R / norm r_sun :=
    le_trans (by norm_num) (by positivity : (0 : ℝ) ≤ R / norm r_sun)
  have ht2r : R / norm r_sun ≤ 1 := (div_le_one hnb).mpr hRsun
  rw [shadow_functionChecked, shadow_function]
  simp only [sqrt_sq_sum_eq_norm]
  simp only [cdiv_of_ne _ hna.ne', cdiv_of_ne _ hnb.ne', Option.bind_eq_bind,
    Option.some_bind]
  rw [carccos_of_mem hq1 hq2, carccos_of_mem ht1l ht1r, carccos_of_mem ht2l ht2r]
  simp only [Option.bind_eq_bind, Option.some_bind]
  rfl

/-- Under the shadow-test preconditions plus nonzero mass, the guarded
radiation-pressure model succeeds and agrees with the total model. -/
theorem radiation_pressureChecked_eq (t0 : ℝ) (state : State)
    (k R C_R A m Wdivc_s : ℝ) (star : ℝ → Vec3)
    (hsat : state.pos ≠ 0) (hstar : star t0 ≠ 0) (hR : 0 ≤ R)
    (hRsat : R ≤ norm state.pos) (hRstar : R ≤ norm (star t0)) (hm : m ≠ 0) :
    radiation_pressureChecked t0 state k R C_R A m Wdivc_s star =
      some (radiation_pressure t0 state k R C_R A m Wdivc_s star) := by
  have hns : 0 < norm (star t0) := norm_pos_of_ne_zero hstar
  have hns2 : norm (star t0) ^ 2 ≠ 0 := pow_ne_zero _ hns.ne'
  rw [radiation_pressureChecked, radiation_pressure]
  rw [shadow_functionChecked_eq state.pos (star t0) R hsat hstar hR hRsat hRstar]
  simp only [cdiv_of_ne _ hns2, cdiv_of_ne _ hm, cdiv_of_ne _ hns.ne',
    Option.bind_eq_bind, Option.some_bind]
  rfl

/-! The claims. -/

/-- C1: for satellite and light-source positions at distance at least R
from the attractor center (both nonzero), shadow_function returns true
exactly when theta < theta_1 + theta_2, where theta is the arccos of the
normalized dot product, theta_1 = arccos(R / |r_sat|) and
theta_2 = arccos(R / |r_sun|). -/
theorem claim_C1_shadow_cone_test (r_sat r_sun : Vec3) (R : ℝ)
    (h1 : R ≤ norm r_sat) (h2 : R ≤ norm r_sun)
    (h3 : r_sat ≠ 0) (h4 : r_sun ≠ 0) :
    shadow_function r_sat r_sun R = true ↔
      Real.arccos (Vec3.dot r_sat r_sun / (norm r_sat * norm r_sun)) <
        Real.arccos (R / norm r_sat) + Real.arccos (R / norm r_sun) := by
  rw [shadow_function_eq, decide_eq_true_iff, div_div]

/-- Witness for C1 at r_sat = (2,0,0), r_sun = (0,2,0), R = 1. -/
theorem claim_C1_witness :
    ((1 : ℝ) ≤ norm ⟨2, 0, 0⟩ ∧ (1 : ℝ) ≤ norm ⟨0, 2, 0⟩ ∧
      (⟨2, 0, 0⟩ : Vec3) ≠ 0 ∧ (⟨0, 2, 0⟩ : Vec3) ≠ 0) ∧
    (shadow_function ⟨2, 0, 0⟩ ⟨0, 2, 0⟩ 1 = true ↔
      Real.arccos (Vec3.dot ⟨2, 0, 0⟩ ⟨0, 2, 0⟩ / (norm ⟨2, 0, 0⟩ * norm ⟨0, 2, 0⟩)) <
        Real.arccos (1 / norm ⟨2, 0, 0⟩) + Real.arccos (1 / norm ⟨0, 2, 0⟩)) := by
  have ha : norm (⟨2, 0, 0⟩ : Vec3) = 2 := norm_xAxis (by norm_num)
  have hb : norm (⟨0, 2, 0⟩ : Vec3) = 2 := norm_yAxis (by norm_num)
  have h1 : (1 : ℝ) ≤ norm (⟨2, 0, 0⟩ : Vec3) := by rw [ha]; norm_num
  have h2 : (1 : ℝ) ≤ norm (⟨0, 2, 0⟩ : Vec3) := by rw [hb]; norm_num
  have h3 : (⟨2, 0, 0⟩ : Vec3) ≠ 0 := by
    rw [Vec3.zero_def]
    intro h
    exact two_ne_zero (congrArg Vec3.x h)
  have h4 : (⟨0, 2, 0⟩ : Vec3) ≠ 0 := by
    rw [Vec3.zero_def]
    intro h
    exact two_ne_zero (congrArg Vec3.y h)
  exact ⟨⟨h1, h2, h3, h4⟩, claim_C1_shadow_cone_test _ _ _ h1 h2 h3 h4⟩

/-- C2: radiation_pressure is exactly the zero vector when the shadow test
reports eclipse, and exactly
-P_s * (C_R*A/m) * r_star / |r_star| with P_s = Wdivc_s / |r_star|^2
when it reports illumination. -/
theorem claim_C2_radiation_eclipse_zero (t0 : ℝ) (state : State)
    (k R C_R A m Wdivc_s : ℝ) (star : ℝ → Vec3) :
    (shadow_function state.pos (star t0) R = false →
      radiation_pressure t0 state k R C_R A m Wdivc_s star = 0) ∧
    (shadow_function state.pos (star t0) R = true →
      radiation_pressure t0 state k R C_R A m Wdivc_s star =
        Vec3.smul (-(Wdivc_s / norm (star t0) ^ 2) * (C_R * A / m) / norm (star t0))
          (star t0)) := by
  constructor
  · intro h
    rw [radiation_pressure, Vec3.zero_def]
    simp only [h, Bool.false_eq_true, if_false, neg_zero, zero_mul, zero_div,
      Vec3.mk.injEq]
  · intro h
    rw [radiation_pressure, Vec3.smul]
    simp only [h, if_true, Vec3.mk.injEq]
    refine ⟨by ring, by ring, by ring⟩

/-- Witness for C2 in an antipodal (eclipsed) configuration. -/
theorem claim_C2_witness :
    shadow_function (State.pos ⟨2, 0, 0, 0, 1, 0⟩) ⟨-4, 0, 0⟩ 1 = false ∧
    radiation_pressure 0 ⟨2, 0, 0, 0, 1, 0⟩ 1 1 1 1 1 1
      (fun _ => ⟨-4, 0, 0⟩) = 0 := by
  have hf : shadow_function (⟨2, 0, 0⟩ : Vec3) ⟨-4, 0, 0⟩ 1 = false :=
    @shadow_false_opposite 2 4 1 (by norm_num) (by norm_num) (by norm_num)
  exact ⟨hf,
    (claim_C2_radiation_eclipse_zero 0 ⟨2, 0, 0, 0, 1, 0⟩ 1 1 1 1 1 1
      (fun _ => ⟨-4, 0, 0⟩)).1 hf⟩

/-- C3: with R = 6378, the satellite at (7000,0,0) is eclipsed when the
star is at (-1.5e8,0,0) and illuminated when the star is at (0,1.5e8,0). -/
theorem claim_C3_concrete_shadow_cases :
    shadow_function ⟨7000, 0, 0⟩ ⟨-150000000, 0, 0⟩ 6378 = false ∧
    shadow_function ⟨7000, 0, 0⟩ ⟨0, 150000000, 0⟩ 6378 = true := by
  constructor
  · exact @shadow_false_opposite 7000 150000000 6378
      (by norm_num) (by norm_num) (by norm_num)
  · exact @shadow_true_perp 7000 150000000 6378
      (by norm_num) (by norm_num) (by norm_num) (by norm_num)

/-- C4: atmospheric_drag returns -0.5 * rho * B * v times the velocity
vector, with B = C_D*A/m, v = |velocity| and
rho = rho0 * exp(-(H - R)/H0) where H = |position| (the exponent uses
H minus R, not H alone). -/
theorem claim_C4_drag_formula (t0 : ℝ) (state : State)
    (k R C_D A m H0 rho0 : ℝ) (hr : norm state.pos ≠ 0)
    (hCD : 0 < C_D) (hA : 0 < A) (hm : 0 < m) (hH0 : 0 < H0)
    (hrho0 : 0 < rho0) :
    atmospheric_drag t0 state k R C_D A m H0 rho0 =
      Vec3.smul (-(1 / 2) * (rho0 * Real.exp (-(norm state.pos - R) / H0)) *
        (C_D * A / m) * norm state.vel) state.vel := by
  rw [atmospheric_drag, Vec3.smul]

/-- Witness for C4 at the state (1,0,0,0,2,0) with unit parameters. -/
theorem claim_C4_witness :
    norm (State.pos ⟨1, 0, 0, 0, 2, 0⟩) ≠ 0 ∧
    atmospheric_drag 0 ⟨1, 0, 0, 0, 2, 0⟩ 1 1 1 1 1 1 1 =
      Vec3.smul (-(1 / 2) *
        (1 * Real.exp (-(norm (State.pos ⟨1, 0, 0, 0, 2, 0⟩) - 1) / 1)) *
        (1 * 1 / 1) * norm (State.vel ⟨1, 0, 0, 0, 2, 0⟩))
        (State.vel ⟨1, 0, 0, 0, 2, 0⟩) := by
  have hr : norm (State.pos ⟨1, 0, 0, 0, 2, 0⟩) ≠ 0 := by
    have hp : State.pos ⟨1, 0, 0, 0, 2, 0⟩ = ⟨1, 0, 0⟩ := rfl
    rw [hp, norm_xAxis (by norm_num : (0 : ℝ) ≤ 1)]
    norm_num
  exact ⟨hr, claim_C4_drag_formula 0 ⟨1, 0, 0, 0, 2, 0⟩ 1 1 1 1 1 1 1 hr
    (by norm_num) (by norm_num) (by norm_num) (by norm_num) (by norm_num)⟩

/-- C5: for a state in the equatorial plane (z = 0) the z-component of the
J2 acceleration is exactly 0, for all k, J2, R. -/
theorem claim_C5_J2_equatorial_z (t0 : ℝ) (state : State) (k J2 R : ℝ)
    (hz : state.z = 0) (hr : norm state.pos ≠ 0) :
    (J2_perturbation t0 state k J2 R).z = 0 := by
  simp only [J2_perturbation, State.pos, hz]
  ring

/-- Witness for C5 at the equatorial state (1,2,0,0,0,0). -/
theorem claim_C5_witness :
    (State.z ⟨1, 2, 0, 0, 0, 0⟩ = 0 ∧ norm (State.pos ⟨1, 2, 0, 0, 0, 0⟩) ≠ 0) ∧
    (J2_perturbation 0 ⟨1, 2, 0, 0, 0, 0⟩ 1 1 1).z = 0 := by
  have hz : State.z ⟨1, 2, 0, 0, 0, 0⟩ = 0 := rfl
  have hne : State.pos ⟨1, 2, 0, 0, 0, 0⟩ ≠ 0 := by
    rw [Vec3.zero_def]
    intro h
    exact one_ne_zero (congrArg Vec3.x h)
  have hr : norm (State.pos ⟨1, 2, 0, 0, 0, 0⟩) ≠ 0 :=
    (norm_pos_of_ne_zero hne).ne'
  exact ⟨⟨hz, hr⟩, claim_C5_J2_equatorial_z 0 ⟨1, 2, 0, 0, 0, 0⟩ 1 1 1 hz hr⟩

/-- C6: the drag acceleration is a nonpositive scalar multiple of the
velocity sub-vector (antiparallel) when rho0, C_D, A, m are positive, and
is the zero vector when the velocity sub-vector is zero. -/
theorem claim_C6_drag_antiparallel (t0 : ℝ) (state : State)
    (k R C_D A m H0 rho0 : ℝ) (hr : norm state.pos ≠ 0)
    (hrho0 : 0 < rho0) (hCD : 0 < C_D) (hA : 0 < A) (hm : 0 < m) :
    (∃ c : ℝ, c ≤ 0 ∧
      atmospheric_drag t0 state k R C_D A m H0 rho0 = Vec3.smul c state.vel) ∧
    (state.vel = 0 → atmospheric_drag t0 state k R C_D A m H0 rho0 = 0) := by
  constructor
  · refine ⟨-(1 / 2) * (rho0 * Real.exp (-(norm state.pos - R) / H0)) *
      (C_D * A / m) * norm state.vel, ?_, ?_⟩
    · have h1 : 0 < rho0 * Real.exp (-(norm state.pos - R) / H0) := by positivity
      have h2 : 0 < C_D * A / m := by positivity
      have h3 : 0 ≤ norm state.vel := norm_nonneg _
      nlinarith [mul_nonneg (mul_nonneg h1.le h2.le) h3]
    · rw [atmospheric_drag, Vec3.smul]
  · intro hv
    rw [atmospheric_drag, hv, Vec3.zero_def]
    simp only [Vec3.mk.injEq, mul_zero]

/-- Witness for C6 at the state (1,0,0,0,3,0) with unit parameters. -/
theorem claim_C6_witness :
    norm (State.pos ⟨1, 0, 0, 0, 3, 0⟩) ≠ 0 ∧
    ((∃ c : ℝ, c ≤ 0 ∧
      atmospheric_drag 0 ⟨1, 0, 0, 0, 3, 0⟩ 1 1 1 1 1 1 1 =
        Vec3.smul c (State.vel ⟨1, 0, 0, 0, 3, 0⟩)) ∧
    (State.vel ⟨1, 0, 0, 0, 3, 0⟩ = 0 →
      atmospheric_drag 0 ⟨1, 0, 0, 0, 3, 0⟩ 1 1 1 1 1 1 1 = 0)) := by
  have hr : norm (State.pos ⟨1, 0, 0, 0, 3, 0⟩) ≠ 0 := by
    have hp : State.pos ⟨1, 0, 0, 0, 3, 0⟩ = ⟨1, 0, 0⟩ := rfl
    rw [hp, norm_xAxis (by norm_num : (0 : ℝ) ≤ 1)]
    norm_num
  exact ⟨hr, claim_C6_drag_antiparallel 0 ⟨1, 0, 0, 0, 3, 0⟩ 1 1 1 1 1 1 1 hr
    (by norm_num) (by norm_num) (by norm_num) (by norm_num)⟩

/-- C7: on non-degenerate inputs (nonzero satellite position, nonzero
third-body and star positions, nonzero separation, nonzero mass and scale
height, shadow-test radius preconditions) every division and arccos
argument of the five acceleration models is in its numeric domain: each
guarded model succeeds and returns the well-defined real 3-vector of the
total model. -/
theorem claim_C7_finite_on_nondegenerate (t0 : ℝ) (state : State)
    (k J2c J3c R C_D A m H0 rho0 k_third C_R Wdivc_s : ℝ)
    (third_body_pos star : ℝ → Vec3)
    (hpos : state.pos ≠ 0)
    (hbody : third_body_pos t0 ≠ 0)
    (hsep : Vec3.sub (third_body_pos t0) state.pos ≠ 0)
    (hstar : star t0 ≠ 0)
    (hR : 0 ≤ R) (hRsat : R ≤ norm state.pos) (hRstar : R ≤ norm (star t0))
    (hm : m ≠ 0) (hH0 : H0 ≠ 0) :
    J2_perturbationChecked t0 state k J2c R =
      some (J2_perturbation t0 state k J2c R) ∧
    J3_perturbationChecked t0 state k J3c R =
      some (J3_perturbation t0 state k J3c R) ∧
    atmospheric_dragChecked t0 state k R C_D A m H0 rho0 =
      some (atmospheric_drag t0 state k R C_D A m H0 rho0) ∧
    third_bodyChecked t0 state k k_third third_body_pos =
      some (third_body t0 state k k_third third_body_pos) ∧
    radiation_pressureChecked t0 state k R C_R A m Wdivc_s star =
      some (radiation_pressure t0 state k R C_R A m Wdivc_s star) := by
  have hr : norm state.pos ≠ 0 := (norm_pos_of_ne_zero hpos).ne'
  exact ⟨J2_perturbationChecked_eq _ _ _ _ _ hr,
    J3_perturbationChecked_eq _ _ _ _ _ hr,
    atmospheric_dragChecked_eq _ _ _ _ _ _ _ _ _ hm hH0,
    third_bodyChecked_eq _ _ _ _ _ (norm_pos_of_ne_zero hsep).ne'
      (norm_pos_of_ne_zero hbody).ne',
    radiation_pressureChecked_eq _ _ _ _ _ _ _ _ _ hpos hstar hR hRsat
      hRstar hm⟩

/-- Witness for C7 at the state (7000,0,0,1,2,3) with the third body and
star at (0,1.5e8,0) and R = 6378. -/
theorem claim_C7_witness :
    (6378 : ℝ) ≤ norm (State.pos ⟨7000, 0, 0, 1, 2, 3⟩) ∧
    (J2_perturbationChecked 0 ⟨7000, 0, 0, 1, 2, 3⟩ 1 1 6378 =
      some (J2_perturbation 0 ⟨7000, 0, 0, 1, 2, 3⟩ 1 1 6378) ∧
    J3_perturbationChecked 0 ⟨7000, 0, 0, 1, 2, 3⟩ 1 1 6378 =
      some (J3_perturbation 0 ⟨7000, 0, 0, 1, 2, 3⟩ 1 1 6378) ∧
    atmospheric_dragChecked 0 ⟨7000, 0, 0, 1, 2, 3⟩ 1 6378 1 1 100 10 1 =
      some (atmospheric_drag 0 ⟨7000, 0, 0, 1, 2, 3⟩ 1 6378 1 1 100 10 1) ∧
    third_bodyChecked 0 ⟨7000, 0, 0, 1, 2, 3⟩ 1 1
      (fun _ => ⟨0, 150000000, 0⟩) =
      some (third_body 0 ⟨7000, 0, 0, 1, 2, 3⟩ 1 1
        (fun _ => ⟨0, 150000000, 0⟩)) ∧
    radiation_pressureChecked 0 ⟨7000, 0, 0, 1, 2, 3⟩ 1 6378 1 1 100 1
      (fun _ => ⟨0, 150000000, 0⟩) =
      some (radiation_pressure 0 ⟨7000, 0, 0, 1, 2, 3⟩ 1 6378 1 1 100 1
        (fun _ => ⟨0, 150000000, 0⟩))) := by
  have hp : State.pos ⟨7000, 0, 0, 1, 2, 3⟩ = ⟨7000, 0, 0⟩ := rfl
  have hpos : State.pos ⟨7000, 0, 0, 1, 2, 3⟩ ≠ 0 := by
    rw [hp, Vec3.zero_def]
    intro h
    have hx : (7000 : ℝ) = 0 := congrArg Vec3.x h
    norm_num at hx
  have hbody : (⟨0, 150000000, 0⟩ : Vec3) ≠ 0 := by
    rw [Vec3.zero_def]
    intro h
    have hy : (150000000 : ℝ) = 0 := congrArg Vec3.y h
    norm_num at hy
  have hsepv : Vec3.sub (⟨0, 150000000, 0⟩ : Vec3)
      (State.pos ⟨7000, 0, 0, 1, 2, 3⟩) = ⟨-7000, 150000000, 0⟩ := by
    rw [hp, Vec3.sub]
    norm_num
  have hsep : Vec3.sub (⟨0, 150000000, 0⟩ : Vec3)
      (State.pos ⟨7000, 0, 0, 1, 2, 3⟩) ≠ 0 := by
    rw [hsepv, Vec3.zero_def]
    intro h
    have hy : (150000000 : ℝ) = 0 := congrArg Vec3.y h
    norm_num at hy
  have hRsat : (6378 : ℝ) ≤ norm (State.pos ⟨7000, 0, 0, 1, 2, 3⟩) := by
    rw [hp, norm_xAxis (by norm_num : (0 : ℝ) ≤ 7000)]
    norm_num
  have hRstar : (6378 : ℝ) ≤ norm (⟨0, 150000000, 0⟩ : Vec3) := by
    rw [norm_yAxis (by norm_num : (0 : ℝ) ≤ 150000000)]
    norm_num
  exact ⟨hRsat, claim_C7_finite_on_nondegenerate 0 ⟨7000, 0, 0, 1, 2, 3⟩
    1 1 1 6378 1 1 100 10 1 1 1 1 (fun _ => ⟨0, 150000000, 0⟩)
    (fun _ => ⟨0, 150000000, 0⟩) hpos hbody hsep hbody (by norm_num)
    hRsat hRstar (by norm_num) (by norm_num)⟩

/-- C8: when the satellite position sub-vector is the zero vector and the
provider returns a nonzero third-body position, the direct and indirect
terms cancel exactly and third_body returns the zero vector. -/
theorem claim_C8_third_body_cancellation (t0 : ℝ) (state : State)
    (k k_third : ℝ) (third_body_pos : ℝ → Vec3)
    (hpos : state.pos = 0) (hbody : third_body_pos t0 ≠ 0) :
    third_body t0 state k k_third third_body_pos = 0 := by
  rw [third_body, hpos]
  have hsub : Vec3.sub (third_body_pos t0) 0 = third_body_pos t0 := by
    rw [Vec3.sub, Vec3.zero_def]
    simp only [sub_zero]
  rw [hsub, Vec3.zero_def]
  simp only [Vec3.mk.injEq, sub_self]

/-- Witness for C8 at the origin state with the third body at (1,0,0). -/
theorem claim_C8_witness :
    (State.pos ⟨0, 0, 0, 1, 1, 1⟩ = 0 ∧ (⟨1, 0, 0⟩ : Vec3) ≠ 0) ∧
    third_body 0 ⟨0, 0, 0, 1, 1, 1⟩ 1 1 (fun _ => ⟨1, 0, 0⟩) = 0 := by
  have hpos : State.pos ⟨0, 0, 0, 1, 1, 1⟩ = 0 := rfl
  have hbody : (⟨1, 0, 0⟩ : Vec3) ≠ 0 := by
    rw [Vec3.zero_def]
    intro h
    exact one_ne_zero (congrArg Vec3.x h)
  exact ⟨⟨hpos, hbody⟩, claim_C8_third_body_cancellation 0 ⟨0, 0, 0, 1, 1, 1⟩
    1 1 (fun _ => ⟨1, 0, 0⟩) hpos hbody⟩

/-- C9: for an equatorial state (z = 0) the J3 acceleration has zero x and
y components, and its z component equals 3 * (0.5*k*J3*R^3 / r^5), which
is nonzero whenever k, J3, R are all nonzero. -/
theorem claim_C9_J3_equatorial (t0 : ℝ) (state : State) (k J3 R : ℝ)
    (hz : state.z = 0) (hr : norm state.pos ≠ 0) :
    (J3_perturbation t0 state k J3 R).x = 0 ∧
    (J3_perturbation t0 state k J3 R).y = 0 ∧
    (J3_perturbation t0 state k J3 R).z =
      3 * ((1 / 2) * k * J3 * R ^ 3 / norm state.pos ^ 5) ∧
    (k ≠ 0 → J3 ≠ 0 → R ≠ 0 → (J3_perturbation t0 state k J3 R).z ≠ 0) := by
  have hx : (J3_perturbation t0 state k J3 R).x = 0 := by
    simp only [J3_perturbation, State.pos, hz, zero_div]
    ring
  have hy : (J3_perturbation t0 state k J3 R).y = 0 := by
    simp only [J3_perturbation, State.pos, hz, zero_div]
    ring
  have hzc : (J3_perturbation t0 state k J3 R).z =
      3 * ((1 / 2) * k * J3 * R ^ 3 / norm state.pos ^ 5) := by
    simp only [J3_perturbation, State.pos, hz, zero_div]
    ring
  refine ⟨hx, hy, hzc, ?_⟩
  intro hk hJ hR0
  rw [hzc]
  have hnum : (1 / 2 : ℝ) * k * J3 * R ^ 3 ≠ 0 :=
    mul_ne_zero (mul_ne_zero (mul_ne_zero (by norm_num) hk) hJ)
      (pow_ne_zero _ hR0)
  exact mul_ne_zero (by norm_num)
    (div_ne_zero hnum (pow_ne_zero _ hr))

/-- Witness for C9 at the equatorial state (1,0,0,0,0,0) with unit
parameters. -/
theorem claim_C9_witness :
    (State.z ⟨1, 0, 0, 0, 0, 0⟩ = 0 ∧ norm (State.pos ⟨1, 0, 0, 0, 0, 0⟩) ≠ 0) ∧
    ((J3_perturbation 0 ⟨1, 0, 0, 0, 0, 0⟩ 1 1 1).x = 0 ∧
    (J3_perturbation 0 ⟨1, 0, 0, 0, 0, 0⟩ 1 1 1).y = 0 ∧
    (J3_perturbation 0 ⟨1, 0, 0, 0, 0, 0⟩ 1 1 1).z =
      3 * ((1 / 2) * 1 * 1 * 1 ^ 3 / norm (State.pos ⟨1, 0, 0, 0, 0, 0⟩) ^ 5) ∧
    ((1 : ℝ) ≠ 0 → (1 : ℝ) ≠ 0 → (1 : ℝ) ≠ 0 →
      (J3_perturbation 0 ⟨1, 0, 0, 0, 0, 0⟩ 1 1 1).z ≠ 0)) := by
  have hz : State.z ⟨1, 0, 0, 0, 0, 0⟩ = 0 := rfl
  have hne : State.pos ⟨1, 0, 0, 0, 0, 0⟩ ≠ 0 := by
    rw [Vec3.zero_def]
    intro h
    exact one_ne_zero (congrArg Vec3.x h)
  have hr : norm (State.pos ⟨1, 0, 0, 0, 0, 0⟩) ≠ 0 :=
    (norm_pos_of_ne_zero hne).ne'
  exact ⟨⟨hz, hr⟩, claim_C9_J3_equatorial 0 ⟨1, 0, 0, 0, 0, 0⟩ 1 1 1 hz hr⟩

/-- C10: radiation_pressure depends on the state only through its position
sub-vector: two states agreeing on the first three components give
identical results for arbitrary velocity components. -/
theorem claim_C10_radiation_velocity_independent (t0 : ℝ) (s1 s2 : State)
    (k R C_R A m Wdivc_s : ℝ) (star : ℝ → Vec3)
    (hx : s1.x = s2.x) (hy : s1.y = s2.y) (hz : s1.z = s2.z) :
    radiation_pressure t0 s1 k R C_R A m Wdivc_s star =
      radiation_pressure t0 s2 k R C_R A m Wdivc_s star := by
  simp only [radiation_pressure, State.pos, hx, hy, hz]

/-- Witness for C10: two states with equal positions and different
velocities. -/
theorem claim_C10_witness :
    radiation_pressure 0 ⟨1, 2, 3, 4, 5, 6⟩ 1 1 1 1 1 1 (fun _ => ⟨1, 0, 0⟩) =
      radiation_pressure 0 ⟨1, 2, 3, 7, 8, 9⟩ 1 1 1 1 1 1
        (fun _ => ⟨1, 0, 0⟩) :=
  claim_C10_radiation_velocity_independent 0 ⟨1, 2, 3, 4, 5, 6⟩
    ⟨1, 2, 3, 7, 8, 9⟩ 1 1 1 1 1 1 (fun _ => ⟨1, 0, 0⟩) rfl rfl rfl

end Poliastro
